import Mathlib

/-!
Verification development for the Derepute repository.

Shallow embedding of:
- `src/contracts/contracts/TorReputationStore.sol` (the registry store):
  Solidity `string` is modelled as Lean `String`, with `bytes(s).length`
  modelled as `String.utf8ByteSize` (Solidity measures UTF-8 bytes);
  `address` is modelled as `Nat` with `0` as the zero address; `uint256`
  is modelled as `Nat`, with the one checked addition of two caller-supplied
  values (`offset + limit` in `getRelaysPaginated`) guarded by the
  Solidity 0.8 overflow check (a sum reaching `2 ^ 256` reverts with an
  arithmetic panic).  A reverting call is an `Except.error`; EVM revert
  semantics discard all state changes of the call, so an erroring call
  leaves the caller's state untouched (`step` / `orKeep` below).
- `src/scripts/src/transformers/relayData.ts` (transformer / validator).
- `src/scripts/src/processDownloadedData.ts` (`ContractUpdater.updateContract`,
  the batch submission loop of the synchronization pipeline).
- `src/web/app/page.tsx` (`fetchAllRelaysProgressively`'s per-batch
  retry loop).
-/

/-- Byte length of a Solidity `string`: `bytes(s).length`. -/
def byteLen (s : String) : Nat := s.utf8ByteSize

/-- EVM addresses, `0` standing for `address(0)`. -/
abbrev Address := Nat

/-- `2 ^ 256`, the modulus of `uint256`; Solidity 0.8 checked arithmetic
reverts when a sum reaches it. -/
def UINT256 : Nat := 2 ^ 256

/-- `uint256 public constant FINGERPRINT_LENGTH = 40`. -/
def FINGERPRINT_LENGTH : Nat := 40

/-- `uint256 public constant MAX_UPTIME = 1000`. -/
def MAX_UPTIME : Nat := 1000

/-- `uint256 public constant COUNTRY_CODE_LENGTH = 2`. -/
def COUNTRY_CODE_LENGTH : Nat := 2

/-- `struct RelayData` of `TorReputationStore.sol`. -/
structure RelayData where
  fingerprint : String
  nickname : String
  flags : List String
  uptime : Nat
  bandwidth : Nat
  consensusWeight : Nat
  country : String
  asNumber : String
  lastSeen : Nat
  running : Bool
deriving Repr, DecidableEq

/-- The default value of a `mapping(string => RelayData)` entry: a struct of
all-empty / zero fields. -/
def RelayData.zero : RelayData :=
  { fingerprint := "", nickname := "", flags := [], uptime := 0, bandwidth := 0
    consensusWeight := 0, country := "", asNumber := "", lastSeen := 0, running := false }

/-- The contract's storage: `owner`, `authorizedUpdaters`,
`relaysByFingerprint` and `fingerprintList`. -/
structure Store where
  owner : Address
  authorizedUpdaters : Address → Bool
  relaysByFingerprint : String → RelayData
  fingerprintList : List String

/-- The distinct revert reasons of the contract (the `require` messages),
plus the Solidity 0.8 arithmetic panic. -/
inductive StoreErr where
  | onlyOwner
  | onlyAuthorized
  | zeroAddress
  | alreadyAuthorized
  | addressNotAuthorized
  | invalidFingerprintLength
  | uptimeExceedsMax
  | invalidCountryCode
  | futureLastSeen
  | emptyNickname
  | relayNotFound
  | indexOutOfBounds
  | offsetOutOfBounds
  | arithmeticPanic
deriving Repr, DecidableEq

/-- The constructor: `owner = msg.sender`, everything else empty. -/
def deploy (deployer : Address) : Store :=
  { owner := deployer
    authorizedUpdaters := fun _ => false
    relaysByFingerprint := fun _ => RelayData.zero
    fingerprintList := [] }

/-- The `onlyAuthorized` modifier's condition:
`msg.sender == owner || authorizedUpdaters[msg.sender]`. -/
def isAuthorized (st : Store) (sender : Address) : Bool :=
  sender == st.owner || st.authorizedUpdaters sender

/-- The five `require` checks of `updateRelay` / `batchUpdateRelays`,
in source order, each with its revert reason.  `now` is `block.timestamp`. -/
def checkRecord (now : Nat) (r : RelayData) : Except StoreErr Unit :=
  if byteLen r.fingerprint ≠ FINGERPRINT_LENGTH then .error .invalidFingerprintLength
  else if r.uptime > MAX_UPTIME then .error .uptimeExceedsMax
  else if byteLen r.country ≠ COUNTRY_CODE_LENGTH then .error .invalidCountryCode
  else if r.lastSeen > now then .error .futureLastSeen
  else if ¬ byteLen r.nickname > 0 then .error .emptyNickname
  else .ok ()

/-- The conjunction of the store's record invariants (spec §3), as one
decidable predicate; `checkRecord_ok_iff` ties it to `checkRecord`. -/
def ValidRecord (now : Nat) (r : RelayData) : Prop :=
  byteLen r.fingerprint = FINGERPRINT_LENGTH ∧ r.uptime ≤ MAX_UPTIME ∧
    byteLen r.country = COUNTRY_CODE_LENGTH ∧ r.lastSeen ≤ now ∧ byteLen r.nickname > 0

instance (now : Nat) (r : RelayData) : Decidable (ValidRecord now r) := by
  unfold ValidRecord; infer_instance

/-- The write of `updateRelay` / of one `batchUpdateRelays` iteration:
append the fingerprint to `fingerprintList` when its mapping slot is still
empty, then overwrite the mapping slot with the new struct. -/
def storeRelay (st : Store) (r : RelayData) : Store :=
  let st' :=
    if byteLen (st.relaysByFingerprint r.fingerprint).fingerprint = 0 then
      { st with fingerprintList := st.fingerprintList ++ [r.fingerprint] }
    else st
  { st' with relaysByFingerprint :=
      fun fp => if fp = r.fingerprint then r else st'.relaysByFingerprint fp }

/-- `updateRelay` (the contract takes the record's fields as ten separate
arguments and stores the struct built from them; passing the struct is
equivalent). -/
def updateRelay (st : Store) (sender : Address) (now : Nat) (r : RelayData) :
    Except StoreErr Store :=
  if isAuthorized st sender then
    match checkRecord now r with
    | .error e => .error e
    | .ok _ => .ok (storeRelay st r)
  else .error .onlyAuthorized

/-- The loop body of `batchUpdateRelays`: validate then write each record in
order; any failing `require` reverts the whole call (the partially updated
state is discarded, which the `Except.error` return models). -/
def batchGo (now : Nat) : Store → List RelayData → Except StoreErr Store
  | st, [] => .ok st
  | st, r :: rs =>
    match checkRecord now r with
    | .error e => .error e
    | .ok _ => batchGo now (storeRelay st r) rs

/-- `batchUpdateRelays`. -/
def batchUpdateRelays (st : Store) (sender : Address) (now : Nat)
    (rs : List RelayData) : Except StoreErr Store :=
  if isAuthorized st sender then batchGo now st rs
  else .error .onlyAuthorized

/-- `transferOwnership`. -/
def transferOwnership (st : Store) (sender newOwner : Address) :
    Except StoreErr Store :=
  if sender ≠ st.owner then .error .onlyOwner
  else if newOwner = 0 then .error .zeroAddress
  else .ok { st with owner := newOwner }

/-- `addAuthorizedUpdater`. -/
def addAuthorizedUpdater (st : Store) (sender updater : Address) :
    Except StoreErr Store :=
  if sender ≠ st.owner then .error .onlyOwner
  else if updater = 0 then .error .zeroAddress
  else if st.authorizedUpdaters updater then .error .alreadyAuthorized
  else .ok { st with authorizedUpdaters :=
    fun a => if a = updater then true else st.authorizedUpdaters a }

/-- `removeAuthorizedUpdater`. -/
def removeAuthorizedUpdater (st : Store) (sender updater : Address) :
    Except StoreErr Store :=
  if sender ≠ st.owner then .error .onlyOwner
  else if ¬ st.authorizedUpdaters updater then .error .addressNotAuthorized
  else .ok { st with authorizedUpdaters :=
    fun a => if a = updater then false else st.authorizedUpdaters a }

/-- `relayExists`: `bytes(relaysByFingerprint[fp].fingerprint).length > 0`. -/
def relayExists (st : Store) (fp : String) : Bool :=
  byteLen (st.relaysByFingerprint fp).fingerprint > 0

/-- `getRelay`. -/
def getRelay (st : Store) (fp : String) : Except StoreErr RelayData :=
  if byteLen (st.relaysByFingerprint fp).fingerprint > 0 then
    .ok (st.relaysByFingerprint fp)
  else .error .relayNotFound

/-- `getRelayCount`. -/
def getRelayCount (st : Store) : Nat := st.fingerprintList.length

/-- `getFingerprintByIndex`. -/
def getFingerprintByIndex (st : Store) (index : Nat) : Except StoreErr String :=
  if index < st.fingerprintList.length then .ok (st.fingerprintList.getD index "")
  else .error .indexOutOfBounds

/-- `getRelaysPaginated`: require `offset < fingerprintList.length`, then
`end = offset + limit` (checked uint256 addition: a sum reaching `2 ^ 256`
reverts with a panic), truncate `end` to the list length, and return
`relaysByFingerprint[fingerprintList[offset + i]]` for
`i < end - offset`. -/
def getRelaysPaginated (st : Store) (offset limit : Nat) :
    Except StoreErr (List RelayData) :=
  if offset < st.fingerprintList.length then
    if offset + limit < UINT256 then
      let e := if offset + limit > st.fingerprintList.length then
        st.fingerprintList.length else offset + limit
      .ok ((List.range (e - offset)).map
        (fun i => st.relaysByFingerprint (st.fingerprintList.getD (offset + i) "")))
    else .error .arithmeticPanic
  else .error .offsetOutOfBounds

/-- Transaction semantics of a reverting call: an `Except.error` outcome
leaves the pre-call state in place. -/
def orKeep (st : Store) : Except StoreErr Store → Store
  | .ok st' => st'
  | .error _ => st

/-- One invocation of any mutating entry point of the contract, with its
`msg.sender` and, for the writes, the `block.timestamp` `now`. -/
inductive Op where
  | transferOwnership (sender newOwner : Address)
  | addUpdater (sender updater : Address)
  | removeUpdater (sender updater : Address)
  | update (sender : Address) (now : Nat) (r : RelayData)
  | batchUpdate (sender : Address) (now : Nat) (rs : List RelayData)

/-- Execute one transaction against the store: apply the entry point and
keep the old state when the call reverts. -/
def step (st : Store) : Op → Store
  | .transferOwnership sender newOwner => orKeep st (transferOwnership st sender newOwner)
  | .addUpdater sender updater => orKeep st (addAuthorizedUpdater st sender updater)
  | .removeUpdater sender updater => orKeep st (removeAuthorizedUpdater st sender updater)
  | .update sender now r => orKeep st (updateRelay st sender now r)
  | .batchUpdate sender now rs => orKeep st (batchUpdateRelays st sender now rs)

/-- The states reachable from a freshly deployed contract by any sequence of
transactions. -/
inductive Reachable : Store → Prop where
  | deploy (deployer : Address) : Reachable (deploy deployer)
  | step {st : Store} (op : Op) (h : Reachable st) : Reachable (step st op)

-- Concrete fixtures used by witnesses and counterexamples.

/-- A 40-character uppercase fingerprint. -/
def fpA : String := "AAAAAAAAAAAAAAAAAAAAAAAAAAAAAAAAAAAAAAAA"

/-- A second 40-character fingerprint. -/
def fpB : String := "BBBBBBBBBBBBBBBBBBBBBBBBBBBBBBBBBBBBBBBB"

/-- A 40-character lowercase, non-hexadecimal fingerprint. -/
def fpZlow : String := "zzzzzzzzzzzzzzzzzzzzzzzzzzzzzzzzzzzzzzzz"

/-- `fpZlow` uppercased. -/
def fpZup : String := "ZZZZZZZZZZZZZZZZZZZZZZZZZZZZZZZZZZZZZZZZ"

/-- A record satisfying every store invariant at `now = 100`. -/
def rGood : RelayData :=
  { fingerprint := fpA, nickname := "RelayA", flags := ["Fast", "Guard"]
    uptime := 500, bandwidth := 1000, consensusWeight := 10, country := "US"
    asNumber := "AS1", lastSeen := 50, running := true }

/-- A second valid record, keyed by `fpB`. -/
def rGoodB : RelayData :=
  { fingerprint := fpB, nickname := "RelayB", flags := []
    uptime := 900, bandwidth := 2000, consensusWeight := 20, country := "DE"
    asNumber := "AS2", lastSeen := 60, running := false }

/-- A record violating the store's country invariant (three-byte country). -/
def rBadCountry : RelayData :=
  { fingerprint := fpB, nickname := "RelayB", flags := []
    uptime := 500, bandwidth := 0, consensusWeight := 0, country := "USA"
    asNumber := "AS1", lastSeen := 50, running := true }

-- C3: authorization discipline.

/-- Whether a contract call succeeded (did not revert). -/
def callOk {α : Type} : Except StoreErr α → Bool
  | .ok _ => true
  | .error _ => false

/-- A deployed store (owner `d`) after the owner authorized updater `u`. -/
def stWithUpd (d u : Address) : Store := step (deploy d) (.addUpdater d u)

-- C4: invariants of the fingerprint index over all reachable states.

/-- The index invariant: `fingerprintList` has no duplicates and holds
exactly the fingerprints whose mapping slot is occupied. -/
def StoreInv (st : Store) : Prop :=
  st.fingerprintList.Nodup ∧
    ∀ fp, fp ∈ st.fingerprintList ↔ relayExists st fp = true

/-- The three preservation facts all `step`-outcomes satisfy. -/
def Preserves (st s : Store) : Prop :=
  (StoreInv st → StoreInv s) ∧
    (∀ fp, relayExists st fp = true → relayExists s fp = true) ∧
    getRelayCount st ≤ getRelayCount s

-- C6: pagination.

/-- A store holding two records, reached by two `updateRelay` transactions. -/
def stTwo : Store :=
  step (step (deploy 1) (Op.update 1 100 rGood)) (Op.update 1 100 rGoodB)

-- C7: the synchronization pipeline's submission loop and the web reader's
-- retry loop.

/-- Outcome of the single on-chain submission try of one batch (the
`estimateGas` + `batchUpdateRelays` + `wait` sequence inside the `try` of
`ContractUpdater.updateContract`). -/
inductive SubmitOutcome where
  | confirmed
  | transientFailure
  | fatalFailure
deriving Repr, DecidableEq

/-- The per-batch entry of the `results` array built by
`ContractUpdater.updateContract` (the `UpdateResult` fields its summary
aggregates). -/
structure UpdateResult where
  success : Bool
  relaysUpdated : Nat
deriving Repr, DecidableEq

/-- The submission loop of `ContractUpdater.updateContract`
(processDownloadedData.ts, non-dry-run path): for each batch index `i` it
makes exactly one submission attempt; on success it records
`success: true` with the batch's size, on any error it records
`success: false, relaysUpdated: 0` (after an optional fixed 3-second wait
for nonce-style messages) and continues with the next batch.  The write
channel is an oracle `outcome i k` giving the result the `k`-th attempt at
batch `i` would get; the code consults only attempt `0` of each batch,
because it contains no retry loop. -/
def updateContract (batches : List (List RelayData))
    (outcome : Nat → Nat → SubmitOutcome) : List UpdateResult :=
  (List.range batches.length).map fun i =>
    match outcome i 0 with
    | .confirmed => { success := true, relaysUpdated := (batches.getD i []).length }
    | _ => { success := false, relaysUpdated := 0 }

/-- A write channel on which the first two attempts at every batch fail
transiently (rate-limit / nonce signal) and the third succeeds. -/
def thirdTimeLucky : Nat → Nat → SubmitOutcome :=
  fun _ k => if k < 2 then .transientFailure else .confirmed

/-- Outcome of one `client.readContract` page fetch inside
`fetchAllRelaysProgressively` (web/app/page.tsx). -/
inductive FetchOutcome where
  | ok
  | rateLimited
  | fatal
deriving Repr, DecidableEq

/-- Result of the `while (!success && retries < 5)` loop of
`fetchAllRelaysProgressively` for one batch: whether the fetch succeeded,
how many `readContract` calls were made, the backoff delays (ms) waited
after each rate-limited attempt, and whether a non-rate-limit error was
re-thrown. -/
structure FetchResult where
  success : Bool
  attempts : Nat
  delays : List Nat
  threw : Bool
deriving Repr, DecidableEq

/-- The reader's retry loop, recursing on the remaining allowed attempts
(`remaining = 5 - retries`, so the loop guard `retries < 5` is exactly
`remaining > 0`); `retries` counts the failures so far and indexes the
oracle `o`'s attempts.  On a rate-limited attempt the code increments
`retries` and waits `Math.pow(2, retries) * 1000` ms; any other error is
re-thrown. -/
def fetchRetryGo (o : Nat → FetchOutcome) :
    Nat → Nat → List Nat → FetchResult
  | retries, 0, delays =>
    { success := false, attempts := retries, delays := delays.reverse, threw := false }
  | retries, remaining + 1, delays =>
    match o retries with
    | .ok =>
      { success := true, attempts := retries + 1, delays := delays.reverse
        threw := false }
    | .rateLimited =>
      fetchRetryGo o (retries + 1) remaining ((2 ^ (retries + 1) * 1000) :: delays)
    | .fatal =>
      { success := false, attempts := retries + 1, delays := delays.reverse
        threw := true }

/-- One batch fetch with retry: `retries` starts at 0, the cap is the
constant `MAX_RETRY_ATTEMPTS = 5`. -/
def fetchBatchWithRetry (o : Nat → FetchOutcome) : FetchResult :=
  fetchRetryGo o 0 5 []

/-- A read channel rate-limited on the first two attempts. -/
def readThirdTimeLucky : Nat → FetchOutcome :=
  fun k => if k < 2 then .rateLimited else .ok

-- C8: the transformer's post-pass filter.

/-- JS `String.prototype.trim`: strip leading and trailing whitespace
(structural model so the kernel can evaluate it; agrees with JS on the
ASCII whitespace appearing in the data). -/
def jsTrim (s : String) : String :=
  ⟨((s.data.dropWhile Char.isWhitespace).reverse.dropWhile
      Char.isWhitespace).reverse⟩

/-- `RelayDataTransformer.validateRelayData` (relayData.ts, lines 139-159):
reject when the fingerprint is falsy (empty) or its length is not 40; when
`uptime > 1000`; when the nickname is falsy or whitespace-only
(`nickname.trim() === ""`); accept otherwise.  The TS `.length` counts
UTF-16 code units, modelled by the character count. -/
def validateRelayData (r : RelayData) : Bool :=
  if r.fingerprint = "" ∨ r.fingerprint.length ≠ 40 then false
  else if r.uptime > 1000 then false
  else if r.nickname = "" ∨ jsTrim r.nickname = "" then false
  else true

-- C9: the transformer's uptime derivation.

/-- `DEFAULT_RUNNING_UPTIME = 950` (relayData.ts). -/
def DEFAULT_RUNNING_UPTIME : Int := 950

/-- `FALLBACK_RUNNING_UPTIME = 900` (relayData.ts). -/
def FALLBACK_RUNNING_UPTIME : Int := 900

/-- `CONSENSUS_WEIGHT_MULTIPLIER = 50000` (relayData.ts). -/
def CONSENSUS_WEIGHT_MULTIPLIER : ℚ := 50000

/-- The uptime computation of `RelayDataTransformer.transformRelay`
(relayData.ts lines 52-64): start from `running ? 950 : 0`; if the feed
entry carries `consensus_weight_fraction`, overwrite with
`Math.min(1000, Math.floor(cwf * 50000))`; otherwise, if running,
overwrite with the fallback 900.  The JS number
`consensus_weight_fraction` is modelled as a rational. -/
def transformUptime (running : Bool) (cwf : Option ℚ) : Int :=
  let uptime : Int := if running then DEFAULT_RUNNING_UPTIME else 0
  match cwf with
  | some q => min 1000 ⌊q * CONSENSUS_WEIGHT_MULTIPLIER⌋
  | none => if running then FALLBACK_RUNNING_UPTIME else uptime

-- C10: case-sensitivity of the store's fingerprint keys.

/-- JS `String.prototype.toUpperCase`, modelled character-wise
(structural, kernel-evaluable). -/
def jsToUpper (s : String) : String := ⟨s.data.map Char.toUpper⟩

/-- The fingerprint selection and normalization of
`RelayDataTransformer.transformRelay` (relayData.ts lines 24-28, 82):
`relay.fingerprint || relay.f` (JS falsy fallback), discarded unless
present with length exactly 40, else returned uppercased. -/
def transformFingerprint (fingerprint f : Option String) : Option String :=
  let fp := match fingerprint with
    | some s => if s = "" then f else some s
    | none => f
  match fp with
  | none => none
  | some s => if s = "" ∨ s.length ≠ 40 then none else some (jsToUpper s)

/-- A valid record keyed by the lowercase non-hex fingerprint `fpZlow`. -/
def rLowZ : RelayData := { rGood with fingerprint := fpZlow, nickname := "LowZ" }

/-- A valid record keyed by `fpZup`, the uppercase form of `fpZlow`. -/
def rUpZ : RelayData := { rGood with fingerprint := fpZup, nickname := "UpZ" }

example : byteLen fpA = 40 := by decide
example : ValidRecord 100 rGood := by decide
example : ¬ ValidRecord 100 rBadCountry := by decide
example : relayExists (step (deploy 1) (Op.update 1 100 rGood)) fpA = true := by decide
example : getRelayCount (step (step (deploy 1) (Op.update 1 100 rGood))
  (Op.update 1 100 rGoodB)) = 2 := by decide

-- Basic lemmas about the store operations.

theorem checkRecord_ok_iff (now : Nat) (r : RelayData) :
    checkRecord now r = .ok () ↔ ValidRecord now r := by
  unfold checkRecord ValidRecord
  split_ifs <;> simp_all

theorem checkRecord_err (now : Nat) (r : RelayData) (hv : ¬ ValidRecord now r) :
    ∃ e, checkRecord now r = .error e := by
  cases h : checkRecord now r with
  | error e => exact ⟨e, rfl⟩
  | ok u => cases u; exact absurd ((checkRecord_ok_iff now r).mp h) hv

theorem storeRelay_relays (st : Store) (r : RelayData) (fp : String) :
    (storeRelay st r).relaysByFingerprint fp =
      if fp = r.fingerprint then r else st.relaysByFingerprint fp := by
  unfold storeRelay
  dsimp only
  split
  · rfl
  · split <;> rfl

theorem storeRelay_list (st : Store) (r : RelayData) :
    (storeRelay st r).fingerprintList =
      if byteLen (st.relaysByFingerprint r.fingerprint).fingerprint = 0 then
        st.fingerprintList ++ [r.fingerprint]
      else st.fingerprintList := by
  unfold storeRelay; dsimp only; split <;> rfl

theorem storeRelay_owner (st : Store) (r : RelayData) :
    (storeRelay st r).owner = st.owner := by
  unfold storeRelay; dsimp only; split <;> rfl

theorem storeRelay_auth (st : Store) (r : RelayData) :
    (storeRelay st r).authorizedUpdaters = st.authorizedUpdaters := by
  unfold storeRelay; dsimp only; split <;> rfl

theorem storeRelay_isAuthorized (st : Store) (r : RelayData) (sender : Address) :
    isAuthorized (storeRelay st r) sender = isAuthorized st sender := by
  unfold isAuthorized; rw [storeRelay_owner, storeRelay_auth]

theorem fingerprint_pos_of_valid {now : Nat} {r : RelayData} (hv : ValidRecord now r) :
    0 < byteLen r.fingerprint := by
  have h := hv.1; unfold FINGERPRINT_LENGTH at h; omega

theorem updateRelay_ok (st : Store) (sender : Address) (now : Nat) (r : RelayData)
    (hauth : isAuthorized st sender = true) (hv : ValidRecord now r) :
    updateRelay st sender now r = .ok (storeRelay st r) := by
  unfold updateRelay
  rw [(checkRecord_ok_iff now r).mpr hv]
  simp [hauth]

theorem updateRelay_err (st : Store) (sender : Address) (now : Nat) (r : RelayData)
    (hv : ¬ ValidRecord now r) : ∃ e, updateRelay st sender now r = .error e := by
  unfold updateRelay
  by_cases hauth : isAuthorized st sender
  · obtain ⟨e, he⟩ := checkRecord_err now r hv
    exact ⟨e, by simp [hauth, he]⟩
  · exact ⟨.onlyAuthorized, by simp [hauth]⟩

theorem batchGo_err (now : Nat) (r : RelayData) (hv : ¬ ValidRecord now r) :
    ∀ rs : List RelayData, r ∈ rs → ∀ st : Store, ∃ e, batchGo now st rs = .error e := by
  intro rs
  induction rs with
  | nil => intro h; cases h
  | cons a as ih =>
    intro hr st
    cases h : checkRecord now a with
    | error e => exact ⟨e, by simp [batchGo, h]⟩
    | ok u =>
      cases u
      rcases List.mem_cons.mp hr with heq | hmem
      · subst heq; exact absurd ((checkRecord_ok_iff now r).mp h) hv
      · obtain ⟨e, he⟩ := ih hmem (storeRelay st a)
        exact ⟨e, by simp [batchGo, h, he]⟩

/-- C1: for an authorized caller (Owner or AuthorizedUpdater), a batch
containing any record violating a §3 invariant makes `batchUpdateRelays`
revert, leaving the whole store unchanged — no record of the batch is
written, `getRelayCount` is unchanged, and every mapping slot keeps its
prior value; a single-record `updateRelay` of the invalid record likewise
reverts with no state change. -/
theorem batchUpdateRelays_atomic (st : Store) (sender : Address) (now : Nat)
    (rs : List RelayData) (r : RelayData)
    (hauth : isAuthorized st sender = true) (hr : r ∈ rs) (hv : ¬ ValidRecord now r) :
    (∃ e, batchUpdateRelays st sender now rs = .error e) ∧
    step st (.batchUpdate sender now rs) = st ∧
    getRelayCount (step st (.batchUpdate sender now rs)) = getRelayCount st ∧
    (∀ fp, (step st (.batchUpdate sender now rs)).relaysByFingerprint fp =
      st.relaysByFingerprint fp) ∧
    (∃ e, updateRelay st sender now r = .error e) ∧
    step st (.update sender now r) = st := by
  obtain ⟨e, he⟩ := batchGo_err now r hv rs hr st
  have hb : batchUpdateRelays st sender now rs = .error e := by
    simp [batchUpdateRelays, hauth, he]
  obtain ⟨e2, he2⟩ := updateRelay_err st sender now r hv
  refine ⟨⟨e, hb⟩, ?_, ?_, ?_, ⟨e2, he2⟩, ?_⟩ <;> simp [step, orKeep, hb, he2]

theorem batchUpdateRelays_atomic_witness :
    isAuthorized (deploy 1) 1 = true ∧ rBadCountry ∈ [rGood, rBadCountry] ∧
    ¬ ValidRecord 100 rBadCountry ∧
    step (deploy 1) (.batchUpdate 1 100 [rGood, rBadCountry]) = deploy 1 :=
  ⟨by decide, by decide, by decide,
    (batchUpdateRelays_atomic (deploy 1) 1 100 [rGood, rBadCountry] rBadCountry
      (by decide) (by decide) (by decide)).2.1⟩

/-- C2: for an authorized caller and a record satisfying every §3 invariant,
`updateRelay` succeeds and a subsequent `getRelay` of its fingerprint returns
exactly the written record (structure equality, i.e. every field equal). -/
theorem updateRelay_roundtrip (st : Store) (sender : Address) (now : Nat) (r : RelayData)
    (hauth : isAuthorized st sender = true) (hv : ValidRecord now r) :
    ∃ st', updateRelay st sender now r = .ok st' ∧
      getRelay st' r.fingerprint = .ok r := by
  refine ⟨storeRelay st r, updateRelay_ok st sender now r hauth hv, ?_⟩
  have hmap : (storeRelay st r).relaysByFingerprint r.fingerprint = r := by
    rw [storeRelay_relays]; simp
  unfold getRelay
  rw [hmap]
  simp [fingerprint_pos_of_valid hv]

theorem updateRelay_roundtrip_witness :
    isAuthorized (deploy 1) 1 = true ∧ ValidRecord 100 rGood ∧
    ∃ st', updateRelay (deploy 1) 1 100 rGood = .ok st' ∧
      getRelay st' rGood.fingerprint = .ok rGood :=
  ⟨by decide, by decide,
    updateRelay_roundtrip (deploy 1) 1 100 rGood (by decide) (by decide)⟩

/-- C5: `updateRelay` is idempotent — for an authorized caller and valid
record, writing `r` twice succeeds both times, the second write does not
grow the fingerprint index (`getRelayCount` unchanged), and the stored value
after the second write is identical to the one after the first: the full
record `r` itself (replace, not merge). -/
theorem updateRelay_idempotent (st : Store) (sender : Address) (now : Nat) (r : RelayData)
    (hauth : isAuthorized st sender = true) (hv : ValidRecord now r) :
    ∃ st1 st2, updateRelay st sender now r = .ok st1 ∧
      updateRelay st1 sender now r = .ok st2 ∧
      getRelayCount st2 = getRelayCount st1 ∧
      st1.relaysByFingerprint r.fingerprint = r ∧
      st2.relaysByFingerprint r.fingerprint = r := by
  have hmap1 : (storeRelay st r).relaysByFingerprint r.fingerprint = r := by
    rw [storeRelay_relays]; simp
  have hauth1 : isAuthorized (storeRelay st r) sender = true := by
    rw [storeRelay_isAuthorized]; exact hauth
  refine ⟨storeRelay st r, storeRelay (storeRelay st r) r,
    updateRelay_ok st sender now r hauth hv,
    updateRelay_ok (storeRelay st r) sender now r hauth1 hv, ?_, hmap1, ?_⟩
  · unfold getRelayCount
    rw [storeRelay_list, hmap1, if_neg]
    have := fingerprint_pos_of_valid hv
    omega
  · rw [storeRelay_relays]; simp

theorem updateRelay_idempotent_witness :
    isAuthorized (deploy 1) 1 = true ∧ ValidRecord 100 rGood ∧
    ∃ st1 st2, updateRelay (deploy 1) 1 100 rGood = .ok st1 ∧
      updateRelay st1 1 100 rGood = .ok st2 ∧
      getRelayCount st2 = getRelayCount st1 ∧
      st1.relaysByFingerprint rGood.fingerprint = rGood ∧
      st2.relaysByFingerprint rGood.fingerprint = rGood :=
  ⟨by decide, by decide,
    updateRelay_idempotent (deploy 1) 1 100 rGood (by decide) (by decide)⟩

/-- C3 counterexample: the claim "after the Owner calls
`removeAuthorizedUpdater(X)`, X's upserts subsequently fail" is false when
`X` is the owner itself.  The owner (address 1) adds itself as an authorized
updater, removes itself again — both calls succeed — and its subsequent
`updateRelay` of a valid record still succeeds, because the `onlyAuthorized`
modifier also admits `msg.sender == owner`. -/
theorem remove_updater_owner_counterexample :
    callOk (addAuthorizedUpdater (deploy 1) 1 1) = true ∧
    callOk (removeAuthorizedUpdater (step (deploy 1) (.addUpdater 1 1)) 1 1) = true ∧
    callOk (updateRelay
      (step (step (deploy 1) (.addUpdater 1 1)) (.removeUpdater 1 1)) 1 100 rGood)
        = true := by
  decide

/-- C3 (amended): (i) a caller that is neither Owner nor an
AuthorizedUpdater always fails `updateRelay` and `batchUpdateRelays` with no
state change; (ii) after the Owner adds a fresh non-zero updater `X`, X's
upsert of a valid record succeeds; (iii) after the Owner removes updater
`X`, X's upserts fail with no state change — provided `X` is not the Owner
itself (the counterexample shows the unamended claim fails for `X = Owner`);
(iv) any caller other than the current Owner fails `transferOwnership`,
`addAuthorizedUpdater` and `removeAuthorizedUpdater` with no state change. -/
theorem authorization_discipline (st : Store) (c X n : Address) (now : Nat)
    (r : RelayData) (rs : List RelayData) :
    (isAuthorized st c = false →
      (∃ e, updateRelay st c now r = .error e) ∧ step st (.update c now r) = st ∧
      (∃ e, batchUpdateRelays st c now rs = .error e) ∧
      step st (.batchUpdate c now rs) = st) ∧
    (X ≠ 0 → st.authorizedUpdaters X = false → ValidRecord now r →
      ∃ st', updateRelay (step st (.addUpdater st.owner X)) X now r = .ok st') ∧
    (st.authorizedUpdaters X = true → X ≠ st.owner →
      updateRelay (step st (.removeUpdater st.owner X)) X now r =
        .error .onlyAuthorized ∧
      step (step st (.removeUpdater st.owner X)) (.update X now r) =
        step st (.removeUpdater st.owner X)) ∧
    (c ≠ st.owner →
      (∃ e, transferOwnership st c n = .error e) ∧
        step st (.transferOwnership c n) = st ∧
      (∃ e, addAuthorizedUpdater st c X = .error e) ∧ step st (.addUpdater c X) = st ∧
      (∃ e, removeAuthorizedUpdater st c X = .error e) ∧
        step st (.removeUpdater c X) = st) := by
  refine ⟨?_, ?_, ?_, ?_⟩
  · intro hna
    refine ⟨⟨.onlyAuthorized, ?_⟩, ?_, ⟨.onlyAuthorized, ?_⟩, ?_⟩ <;>
      simp [step, orKeep, updateRelay, batchUpdateRelays, hna]
  · intro hX0 hXu hv
    have hadd : addAuthorizedUpdater st st.owner X =
        .ok { st with authorizedUpdaters :=
          fun a => if a = X then true else st.authorizedUpdaters a } := by
      simp [addAuthorizedUpdater, hX0, hXu]
    have hstep : step st (.addUpdater st.owner X) =
        { st with authorizedUpdaters :=
          fun a => if a = X then true else st.authorizedUpdaters a } := by
      simp [step, hadd, orKeep]
    rw [hstep]
    have hauth : isAuthorized { st with authorizedUpdaters :=
        fun a => if a = X then true else st.authorizedUpdaters a } X = true := by
      simp [isAuthorized]
    exact ⟨_, updateRelay_ok _ X now r hauth hv⟩
  · intro hXu hXo
    have hstep : step st (.removeUpdater st.owner X) =
        { st with authorizedUpdaters :=
          fun a => if a = X then false else st.authorizedUpdaters a } := by
      simp [step, orKeep, removeAuthorizedUpdater, hXu]
    rw [hstep]
    constructor
    · simp [updateRelay, isAuthorized, hXo]
    · simp [step, orKeep, updateRelay, isAuthorized, hXo]
  · intro hc
    refine ⟨⟨.onlyOwner, ?_⟩, ?_, ⟨.onlyOwner, ?_⟩, ?_, ⟨.onlyOwner, ?_⟩, ?_⟩ <;>
      simp [step, orKeep, transferOwnership, addAuthorizedUpdater,
        removeAuthorizedUpdater, hc]

theorem authorization_discipline_witness :
    isAuthorized (deploy 1) 7 = false ∧ (7 : Address) ≠ 1 ∧
    step (deploy 1) (.update 7 100 rGood) = deploy 1 ∧
    step (deploy 1) (.transferOwnership 7 9) = deploy 1 ∧
    (∃ st', updateRelay (step (deploy 1) (.addUpdater (deploy 1).owner 2))
      2 100 rGood = .ok st') ∧
    updateRelay (step (stWithUpd 1 2) (.removeUpdater (stWithUpd 1 2).owner 2))
      2 100 rGood = .error .onlyAuthorized :=
  ⟨by decide, by decide,
    ((authorization_discipline (deploy 1) 7 2 9 100 rGood []).1 (by decide)).2.1,
    ((authorization_discipline (deploy 1) 7 2 9 100 rGood []).2.2.2 (by decide)).2.1,
    (authorization_discipline (deploy 1) 7 2 9 100 rGood []).2.1
      (by decide) (by decide) (by decide),
    ((authorization_discipline (stWithUpd 1 2) 7 2 9 100 rGood []).2.2.1
      (by decide) (by decide)).1⟩

theorem relayExists_storeRelay (st : Store) (r : RelayData) (fp : String)
    (hr : 0 < byteLen r.fingerprint) :
    relayExists (storeRelay st r) fp =
      if fp = r.fingerprint then true else relayExists st fp := by
  unfold relayExists
  rw [storeRelay_relays]
  split_ifs with h
  · simpa using hr
  · rfl

theorem storeRelay_inv (st : Store) (r : RelayData)
    (hr : 0 < byteLen r.fingerprint) (h : StoreInv st) : StoreInv (storeRelay st r) := by
  obtain ⟨hnd, hiff⟩ := h
  by_cases hg : byteLen (st.relaysByFingerprint r.fingerprint).fingerprint = 0
  · have hnotmem : r.fingerprint ∉ st.fingerprintList := by
      rw [hiff]
      simp [relayExists, hg]
    constructor
    · rw [storeRelay_list, if_pos hg, List.nodup_append]
      exact ⟨hnd, List.nodup_singleton _, by
        intro a ha hb
        rw [List.mem_singleton] at hb
        exact hnotmem (hb ▸ ha)⟩
    · intro fp
      rw [storeRelay_list, if_pos hg, relayExists_storeRelay st r fp hr,
        List.mem_append, List.mem_singleton]
      by_cases hfp : fp = r.fingerprint
      · simp [hfp]
      · simp [hfp, hiff fp]
  · constructor
    · rw [storeRelay_list, if_neg hg]
      exact hnd
    · intro fp
      rw [storeRelay_list, if_neg hg, relayExists_storeRelay st r fp hr]
      by_cases hfp : fp = r.fingerprint
      · rw [if_pos hfp, hfp, hiff r.fingerprint]
        constructor
        · intro _
          rfl
        · intro _
          simp only [relayExists, decide_eq_true_eq]
          omega
      · rw [if_neg hfp]
        exact hiff fp

theorem relayExists_mono_storeRelay (st : Store) (r : RelayData) (fp : String)
    (hr : 0 < byteLen r.fingerprint) (h : relayExists st fp = true) :
    relayExists (storeRelay st r) fp = true := by
  rw [relayExists_storeRelay st r fp hr]
  split_ifs <;> simp [h]

theorem count_mono_storeRelay (st : Store) (r : RelayData) :
    getRelayCount st ≤ getRelayCount (storeRelay st r) := by
  unfold getRelayCount
  rw [storeRelay_list]
  split_ifs <;> simp

theorem checkRecord_fingerprint_pos {now : Nat} {r : RelayData}
    (h : checkRecord now r = .ok ()) : 0 < byteLen r.fingerprint :=
  fingerprint_pos_of_valid ((checkRecord_ok_iff now r).mp h)

theorem preserves_rfl (st : Store) : Preserves st st :=
  ⟨id, fun _ => id, Nat.le_refl _⟩

theorem preserves_storeRelay (st : Store) (r : RelayData)
    (hr : 0 < byteLen r.fingerprint) : Preserves st (storeRelay st r) :=
  ⟨storeRelay_inv st r hr, fun fp => relayExists_mono_storeRelay st r fp hr,
    count_mono_storeRelay st r⟩

theorem preserves_trans {st s u : Store} (h1 : Preserves st s)
    (h2 : Preserves s u) : Preserves st u :=
  ⟨fun hi => h2.1 (h1.1 hi), fun fp hfp => h2.2.1 fp (h1.2.1 fp hfp),
    Nat.le_trans h1.2.2 h2.2.2⟩

theorem batchGo_preserves (now : Nat) :
    ∀ (rs : List RelayData) (st s : Store), batchGo now st rs = .ok s →
      Preserves st s := by
  intro rs
  induction rs with
  | nil =>
    intro st s h
    cases h
    exact preserves_rfl st
  | cons a as ih =>
    intro st s h
    unfold batchGo at h
    cases hc : checkRecord now a with
    | error e => rw [hc] at h; cases h
    | ok u =>
      cases u
      rw [hc] at h
      exact preserves_trans
        (preserves_storeRelay st a (checkRecord_fingerprint_pos hc))
        (ih (storeRelay st a) s h)

theorem updateRelay_ok_cases {st s : Store} {c : Address} {now : Nat} {r : RelayData}
    (h : updateRelay st c now r = .ok s) :
    s = storeRelay st r ∧ 0 < byteLen r.fingerprint := by
  unfold updateRelay at h
  by_cases hauth : isAuthorized st c
  · rw [if_pos hauth] at h
    cases hc : checkRecord now r with
    | error e => rw [hc] at h; cases h
    | ok u =>
      cases u
      rw [hc] at h
      cases h
      exact ⟨rfl, checkRecord_fingerprint_pos hc⟩
  · rw [if_neg hauth] at h; cases h

theorem admin_ok_preserves {st s : Store}
    (h1 : s.fingerprintList = st.fingerprintList)
    (h2 : s.relaysByFingerprint = st.relaysByFingerprint) :
    Preserves st s := by
  have hex : ∀ fp, relayExists s fp = relayExists st fp := by
    intro fp
    unfold relayExists
    rw [h2]
  refine ⟨?_, ?_, ?_⟩
  · intro hi
    refine ⟨h1 ▸ hi.1, ?_⟩
    intro fp
    rw [h1, hex fp]
    exact hi.2 fp
  · intro fp hfp
    rw [hex fp]
    exact hfp
  · unfold getRelayCount
    rw [h1]

theorem transferOwnership_ok_fields {st s : Store} {c n : Address}
    (h : transferOwnership st c n = .ok s) :
    s.fingerprintList = st.fingerprintList ∧
      s.relaysByFingerprint = st.relaysByFingerprint := by
  unfold transferOwnership at h
  split_ifs at h <;> cases h
  exact ⟨rfl, rfl⟩

theorem addAuthorizedUpdater_ok_fields {st s : Store} {c u : Address}
    (h : addAuthorizedUpdater st c u = .ok s) :
    s.fingerprintList = st.fingerprintList ∧
      s.relaysByFingerprint = st.relaysByFingerprint := by
  unfold addAuthorizedUpdater at h
  split_ifs at h <;> cases h
  exact ⟨rfl, rfl⟩

theorem removeAuthorizedUpdater_ok_fields {st s : Store} {c u : Address}
    (h : removeAuthorizedUpdater st c u = .ok s) :
    s.fingerprintList = st.fingerprintList ∧
      s.relaysByFingerprint = st.relaysByFingerprint := by
  unfold removeAuthorizedUpdater at h
  split_ifs at h <;> cases h
  exact ⟨rfl, rfl⟩

theorem orKeep_preserves (st : Store) (res : Except StoreErr Store)
    (hok : ∀ s, res = .ok s → Preserves st s) :
    Preserves st (orKeep st res) := by
  cases res with
  | ok s => exact hok s rfl
  | error e => exact preserves_rfl st

theorem step_preserves (st : Store) (op : Op) : Preserves st (step st op) := by
  cases op with
  | transferOwnership c n =>
    exact orKeep_preserves st _ (fun s h =>
      admin_ok_preserves (transferOwnership_ok_fields h).1
        (transferOwnership_ok_fields h).2)
  | addUpdater c u =>
    exact orKeep_preserves st _ (fun s h =>
      admin_ok_preserves (addAuthorizedUpdater_ok_fields h).1
        (addAuthorizedUpdater_ok_fields h).2)
  | removeUpdater c u =>
    exact orKeep_preserves st _ (fun s h =>
      admin_ok_preserves (removeAuthorizedUpdater_ok_fields h).1
        (removeAuthorizedUpdater_ok_fields h).2)
  | update c now r =>
    refine orKeep_preserves st _ (fun s h => ?_)
    obtain ⟨hs, hr⟩ := updateRelay_ok_cases h
    subst hs
    exact preserves_storeRelay st r hr
  | batchUpdate c now rs =>
    refine orKeep_preserves st _ (fun s h => ?_)
    have hb : batchGo now st rs = .ok s := by
      unfold batchUpdateRelays at h
      split_ifs at h
      exact h
    exact batchGo_preserves now rs st s hb

theorem reachable_storeInv {st : Store} (h : Reachable st) : StoreInv st := by
  induction h with
  | deploy d =>
    refine ⟨List.nodup_nil, fun fp => ?_⟩
    have hne : relayExists (deploy d) fp = false := rfl
    have hl : (deploy d).fingerprintList = [] := rfl
    rw [hl, hne]
    simp
  | step op h ih => exact (step_preserves _ op).1 ih

/-- C4: in every state reachable from a freshly deployed contract by any
sequence of transactions, `fingerprintList` has no duplicate fingerprints
and holds exactly the fingerprints with a stored record (so
`getRelayCount` counts the stored records), and no transaction shrinks the
index or removes a record: `relayExists` stays true and `getRelayCount` is
non-decreasing across every operation. -/
theorem fingerprintList_invariants (st : Store) (h : Reachable st)
    (op : Op) (fp : String) :
    st.fingerprintList.Nodup ∧
    (fp ∈ st.fingerprintList ↔ relayExists st fp = true) ∧
    getRelayCount st ≤ getRelayCount (step st op) ∧
    (relayExists st fp = true → relayExists (step st op) fp = true) :=
  ⟨(reachable_storeInv h).1, (reachable_storeInv h).2 fp,
    (step_preserves st op).2.2, (step_preserves st op).2.1 fp⟩

theorem fingerprintList_invariants_witness :
    (step (deploy 1) (Op.update 1 100 rGood)).fingerprintList.Nodup ∧
    (fpA ∈ (step (deploy 1) (Op.update 1 100 rGood)).fingerprintList ↔
      relayExists (step (deploy 1) (Op.update 1 100 rGood)) fpA = true) ∧
    getRelayCount (step (deploy 1) (Op.update 1 100 rGood)) ≤
      getRelayCount (step (step (deploy 1) (Op.update 1 100 rGood))
        (Op.batchUpdate 1 100 [rGood, rGoodB])) ∧
    (relayExists (step (deploy 1) (Op.update 1 100 rGood)) fpA = true →
      relayExists (step (step (deploy 1) (Op.update 1 100 rGood))
        (Op.batchUpdate 1 100 [rGood, rGoodB])) fpA = true) :=
  fingerprintList_invariants _
    (Reachable.step (Op.update 1 100 rGood) (Reachable.deploy 1))
    (Op.batchUpdate 1 100 [rGood, rGoodB]) fpA

/-- C6 counterexample: "for every offset < count() it succeeds … truncated
to the available tail rather than erroring" fails on the checked uint256
addition `end = offset + limit`: on a store with 2 records, offset 1 (which
is < count) and limit `2^256 - 1` make `offset + limit` reach `2^256`, so
the call reverts with a Solidity 0.8 arithmetic panic instead of returning
the tail. -/
theorem getRelaysPaginated_overflow_counterexample :
    1 < getRelayCount stTwo ∧
    getRelaysPaginated stTwo 1 (UINT256 - 1) = .error .arithmeticPanic ∧
    callOk (getRelaysPaginated stTwo 1 (UINT256 - 1)) = false :=
  ⟨by decide, rfl, rfl⟩

theorem range_map_eq_drop_take (l : List String) (f : String → RelayData)
    (offset e : Nat) (hoe : offset ≤ e) (hel : e ≤ l.length) :
    (List.range (e - offset)).map (fun i => f (l.getD (offset + i) "")) =
      ((l.drop offset).take (e - offset)).map f := by
  apply List.ext_getElem
  · simp only [List.length_map, List.length_range, List.length_take,
      List.length_drop]
    omega
  · intro i h1 h2
    simp only [List.length_map, List.length_range] at h1
    simp only [List.getElem_map, List.getElem_range, List.getElem_take,
      List.getElem_drop]
    rw [List.getD_eq_getElem l "" (by omega)]

theorem getRelaysPaginated_ok (st : Store) (offset limit : Nat)
    (hoff : offset < st.fingerprintList.length) (hov : offset + limit < UINT256) :
    getRelaysPaginated st offset limit =
      .ok (((st.fingerprintList.drop offset).take limit).map
        st.relaysByFingerprint) := by
  unfold getRelaysPaginated
  rw [if_pos hoff, if_pos hov]
  dsimp only
  congr 1
  have hmin : (if offset + limit > st.fingerprintList.length then
      st.fingerprintList.length else offset + limit) =
      min (offset + limit) st.fingerprintList.length := by
    split_ifs <;> omega
  rw [hmin, range_map_eq_drop_take st.fingerprintList st.relaysByFingerprint
    offset (min (offset + limit) st.fingerprintList.length) (by omega) (by omega)]
  congr 1
  rw [List.take_eq_take]
  simp only [List.length_drop]
  omega

/-- C6 (amended): `getRelaysPaginated` fails with the out-of-bounds error
iff `offset ≥ getRelayCount` (in particular every offset fails on an empty
store); and — provided the checked uint256 addition `offset + limit` does
not overflow, i.e. `offset + limit < 2^256` (the counterexample shows the
claim fails without this proviso) — every `offset < getRelayCount` succeeds
and returns exactly the records of index positions `offset` through
`min(offset + limit, count) - 1` of the fingerprint index in insertion
order; consequently `page(0, count)` returns the whole index's records and
`page(count - 1, 5)` returns exactly one record. -/
theorem getRelaysPaginated_pagination (st : Store) (offset limit : Nat) :
    (getRelaysPaginated st offset limit = .error .offsetOutOfBounds ↔
      getRelayCount st ≤ offset) ∧
    (offset < getRelayCount st → offset + limit < UINT256 →
      getRelaysPaginated st offset limit =
        .ok (((st.fingerprintList.drop offset).take limit).map
          st.relaysByFingerprint)) ∧
    (0 < getRelayCount st → getRelayCount st < UINT256 →
      getRelaysPaginated st 0 (getRelayCount st) =
        .ok (st.fingerprintList.map st.relaysByFingerprint)) ∧
    (0 < getRelayCount st → getRelayCount st + 4 < UINT256 →
      ∃ page, getRelaysPaginated st (getRelayCount st - 1) 5 = .ok page ∧
        page.length = 1) := by
  refine ⟨?_, ?_, ?_, ?_⟩
  · unfold getRelaysPaginated getRelayCount
    split_ifs with h1 h2
    · constructor
      · intro h
        cases h
      · intro h
        omega
    · constructor
      · intro h
        cases h
      · intro h
        omega
    · simp only [true_iff]
      omega
  · intro hoff hov
    exact getRelaysPaginated_ok st offset limit hoff hov
  · intro hpos hov
    rw [getRelaysPaginated_ok st 0 (getRelayCount st) hpos (by omega)]
    rw [List.drop_zero]
    unfold getRelayCount
    rw [List.take_length]
  · intro hpos hov
    refine ⟨_, getRelaysPaginated_ok st (getRelayCount st - 1) 5
      (by unfold getRelayCount at hpos ⊢; omega) (by omega), ?_⟩
    simp only [List.length_map, List.length_take, List.length_drop]
    unfold getRelayCount at hpos ⊢
    omega

theorem getRelaysPaginated_pagination_witness :
    getRelaysPaginated stTwo 2 7 = .error .offsetOutOfBounds ∧
    getRelaysPaginated stTwo 1 5 =
      .ok (((stTwo.fingerprintList.drop 1).take 5).map
        stTwo.relaysByFingerprint) ∧
    getRelaysPaginated stTwo 0 (getRelayCount stTwo) =
      .ok (stTwo.fingerprintList.map stTwo.relaysByFingerprint) :=
  ⟨(getRelaysPaginated_pagination stTwo 2 7).1.mpr (by decide),
    (getRelaysPaginated_pagination stTwo 1 5).2.1 (by decide) (by decide),
    (getRelaysPaginated_pagination stTwo 0 0).2.2.1 (by decide) (by decide)⟩

/-- C7 counterexample: the claim says a chunk submission failing twice with
a transient signal and succeeding on the third attempt is reported
successful with 3 attempts.  On the write channel `thirdTimeLucky` — whose
third attempt would succeed — `ContractUpdater.updateContract` reports the
chunk as FAILED (`success := false`, zero relays), because it never makes a
second attempt: the submission loop has no retry. -/
theorem updateContract_no_retry_counterexample :
    thirdTimeLucky 0 0 = .transientFailure ∧
    thirdTimeLucky 0 1 = .transientFailure ∧
    thirdTimeLucky 0 2 = .confirmed ∧
    updateContract [[rGood]] thirdTimeLucky =
      [{ success := false, relaysUpdated := 0 }] :=
  ⟨rfl, rfl, rfl, rfl⟩

theorem fetchRetryGo_attempts_le (o : Nat → FetchOutcome) :
    ∀ (remaining retries : Nat) (delays : List Nat),
      (fetchRetryGo o retries remaining delays).attempts ≤ retries + remaining := by
  intro remaining
  induction remaining with
  | zero =>
    intro retries delays
    exact Nat.le_refl _
  | succ n ih =>
    intro retries delays
    cases h : o retries with
    | ok => simp [fetchRetryGo, h]
    | rateLimited =>
      have hih := ih (retries + 1) ((2 ^ (retries + 1) * 1000) :: delays)
      simp only [fetchRetryGo, h]
      omega
    | fatal =>
      simp [fetchRetryGo, h]

theorem fetchRetryGo_rateLimited (o : Nat → FetchOutcome) (retries n : Nat)
    (delays : List Nat) (h : o retries = .rateLimited) :
    fetchRetryGo o retries (n + 1) delays =
      fetchRetryGo o (retries + 1) n ((2 ^ (retries + 1) * 1000) :: delays) := by
  simp [fetchRetryGo, h]

theorem fetchRetryGo_ok (o : Nat → FetchOutcome) (retries n : Nat)
    (delays : List Nat) (h : o retries = .ok) :
    fetchRetryGo o retries (n + 1) delays =
      { success := true, attempts := retries + 1, delays := delays.reverse
        threw := false } := by
  simp [fetchRetryGo, h]

/-- C7 (amended): the write pipeline (`ContractUpdater.updateContract`)
does not retry a failed chunk — each chunk gets exactly one submission
attempt; a chunk whose submission fails (transiently or not) is recorded as
a failed result (`success := false`, zero relays updated) and the run
proceeds, producing one result per batch.  Retry with exponential backoff
bounded by 5 attempts exists instead in the web reader's progressive batch
fetch (`fetchAllRelaysProgressively`): there, a batch fetch rate-limited
twice and succeeding on the third attempt is reported successful with 3
attempts and backoff delays 2000 ms then 4000 ms (the delay doubles, total
elapsed backoff `delay₁ + delay₂` with `delay₂ = 2 × delay₁`), and no fetch
ever makes more than 5 attempts. -/
theorem pipeline_retry_behaviour (batches : List (List RelayData))
    (outcome : Nat → Nat → SubmitOutcome) (i : Nat) (o oAny : Nat → FetchOutcome)
    (hi : i < batches.length) (hfail : outcome i 0 ≠ .confirmed)
    (h0 : o 0 = .rateLimited) (h1 : o 1 = .rateLimited) (h2 : o 2 = .ok) :
    (updateContract batches outcome).length = batches.length ∧
    (updateContract batches outcome).getD i { success := true, relaysUpdated := 0 } =
      { success := false, relaysUpdated := 0 } ∧
    fetchBatchWithRetry o =
      { success := true, attempts := 3, delays := [2000, 4000], threw := false } ∧
    (fetchBatchWithRetry oAny).attempts ≤ 5 := by
  refine ⟨by simp [updateContract], ?_, ?_, ?_⟩
  · rw [List.getD_eq_getElem _ _ (by simpa [updateContract] using hi)]
    unfold updateContract
    rw [List.getElem_map]
    rw [List.getElem_range]
    cases h : outcome i 0 with
    | confirmed => exact absurd h hfail
    | transientFailure => rfl
    | fatalFailure => rfl
  · unfold fetchBatchWithRetry
    rw [show (5 : Nat) = 4 + 1 from rfl, fetchRetryGo_rateLimited o 0 4 [] h0,
      show (4 : Nat) = 3 + 1 from rfl, fetchRetryGo_rateLimited o 1 3 _ h1,
      show (3 : Nat) = 2 + 1 from rfl, fetchRetryGo_ok o 2 2 _ h2]
    rfl
  · exact fetchRetryGo_attempts_le oAny 5 0 []

theorem pipeline_retry_behaviour_witness :
    (updateContract [[rGood]] thirdTimeLucky).getD 0
      { success := true, relaysUpdated := 0 } =
      { success := false, relaysUpdated := 0 } ∧
    fetchBatchWithRetry readThirdTimeLucky =
      { success := true, attempts := 3, delays := [2000, 4000], threw := false } ∧
    (fetchBatchWithRetry readThirdTimeLucky).attempts ≤ 5 :=
  ⟨(pipeline_retry_behaviour [[rGood]] thirdTimeLucky 0 readThirdTimeLucky
      readThirdTimeLucky (by decide) (by decide) rfl rfl rfl).2.1,
    (pipeline_retry_behaviour [[rGood]] thirdTimeLucky 0 readThirdTimeLucky
      readThirdTimeLucky (by decide) (by decide) rfl rfl rfl).2.2.1,
    (pipeline_retry_behaviour [[rGood]] thirdTimeLucky 0 readThirdTimeLucky
      readThirdTimeLucky (by decide) (by decide) rfl rfl rfl).2.2.2⟩

/-- C8 counterexample: the filter is NOT the store's validation predicate —
it checks neither the country-code length nor `lastSeen`.  The concrete
record `rBadCountry` (country "USA") passes `validateRelayData` but
violates the store's §3 invariants, and the store rejects it at upsert
time with the invalid-country revert. -/
theorem validateRelayData_not_store_counterexample :
    validateRelayData rBadCountry = true ∧
    ¬ ValidRecord 100 rBadCountry ∧
    updateRelay (deploy 1) 1 100 rBadCountry = .error .invalidCountryCode :=
  ⟨rfl, by decide, rfl⟩

/-- C8 (amended): `validateRelayData` accepts a record exactly when its
fingerprint is non-empty of length 40, its uptime is at most 1000, and its
nickname is non-empty even after trimming whitespace; it does not examine
the country code or `lastSeen`, so (per the counterexample) filter
acceptance does not imply store-validation acceptance — and on
whitespace-only nicknames the filter is stricter than the store. -/
theorem validateRelayData_characterization (r : RelayData) :
    validateRelayData r = true ↔
      (r.fingerprint ≠ "" ∧ r.fingerprint.length = 40 ∧ r.uptime ≤ 1000 ∧
        r.nickname ≠ "" ∧ jsTrim r.nickname ≠ "") := by
  unfold validateRelayData
  split_ifs with h1 h2 h3
  · simp only [false_iff]
    intro hc
    rcases h1 with h | h
    · exact hc.1 h
    · exact h hc.2.1
  · simp only [false_iff]
    intro hc
    exact absurd hc.2.2.1 (by omega)
  · simp only [false_iff]
    intro hc
    rcases h3 with h | h
    · exact hc.2.2.2.1 h
    · exact hc.2.2.2.2 h
  · simp only [true_iff]
    push_neg at h1 h3
    exact ⟨h1.1, h1.2, by omega, h3.1, h3.2⟩

theorem validateRelayData_characterization_witness :
    validateRelayData rGood = true :=
  (validateRelayData_characterization rGood).mpr (by decide)

/-- C9: when the feed entry carries a (non-negative) fractional
contribution metric, the derived uptime is that fraction scaled by the
fixed multiplier, floored and clamped to at most 1000 — hence always in
`[0, 1000]`; when the entry is running without the metric, uptime is the
fixed high default 900; when not running (and no metric), uptime is 0. -/
theorem transformUptime_spec (running : Bool) (q : ℚ) (hq : 0 ≤ q) :
    transformUptime running (some q) =
      min 1000 ⌊q * CONSENSUS_WEIGHT_MULTIPLIER⌋ ∧
    0 ≤ transformUptime running (some q) ∧
    transformUptime running (some q) ≤ 1000 ∧
    transformUptime true none = FALLBACK_RUNNING_UPTIME ∧
    transformUptime false none = 0 := by
  refine ⟨rfl, ?_, ?_, rfl, rfl⟩
  · show (0 : Int) ≤ min 1000 ⌊q * CONSENSUS_WEIGHT_MULTIPLIER⌋
    have hm : (0 : ℚ) ≤ q * CONSENSUS_WEIGHT_MULTIPLIER :=
      mul_nonneg hq (by norm_num [CONSENSUS_WEIGHT_MULTIPLIER])
    exact le_min (by norm_num) (Int.floor_nonneg.mpr hm)
  · show min 1000 ⌊q * CONSENSUS_WEIGHT_MULTIPLIER⌋ ≤ (1000 : Int)
    exact min_le_left _ _

theorem transformUptime_spec_witness :
    transformUptime true (some 0) =
      min 1000 ⌊(0 : ℚ) * CONSENSUS_WEIGHT_MULTIPLIER⌋ ∧
    0 ≤ transformUptime true (some 0) ∧
    transformUptime true (some 0) ≤ 1000 ∧
    transformUptime true none = FALLBACK_RUNNING_UPTIME ∧
    transformUptime false none = 0 :=
  transformUptime_spec true 0 (le_refl 0)

example : jsToUpper fpZlow = fpZup := by decide

/-- C10: the store checks only the fingerprint's byte length, never its
content or case: an authorized caller can upsert any otherwise-valid record
whose fingerprint has byte length 40 (lowercase or non-hexadecimal
included), two distinct fingerprints — e.g. differing only in letter
case — are distinct mapping keys and index entries (both records separately
retrievable verbatim, count up by two), and uppercase normalization happens
only in the off-chain transformer, which maps an accepted fingerprint to
its uppercase form. -/
theorem store_fingerprint_case_sensitivity (st : Store) (sender : Address)
    (now : Nat) (r1 r2 : RelayData) (s : String)
    (hauth : isAuthorized st sender = true)
    (hv1 : ValidRecord now r1) (hv2 : ValidRecord now r2)
    (hne : r1.fingerprint ≠ r2.fingerprint)
    (hnew1 : relayExists st r1.fingerprint = false)
    (hnew2 : relayExists st r2.fingerprint = false)
    (hs0 : s ≠ "") (hs40 : s.length = 40) :
    (∃ st1 st2, updateRelay st sender now r1 = .ok st1 ∧
      updateRelay st1 sender now r2 = .ok st2 ∧
      getRelay st2 r1.fingerprint = .ok r1 ∧
      getRelay st2 r2.fingerprint = .ok r2 ∧
      getRelayCount st2 = getRelayCount st + 2) ∧
    transformFingerprint (some s) none = some (jsToUpper s) := by
  constructor
  · have hz1 : byteLen (st.relaysByFingerprint r1.fingerprint).fingerprint = 0 := by
      simp only [relayExists, decide_eq_false_iff_not] at hnew1
      omega
    have hz2 : byteLen (st.relaysByFingerprint r2.fingerprint).fingerprint = 0 := by
      simp only [relayExists, decide_eq_false_iff_not] at hnew2
      omega
    have hauth1 : isAuthorized (storeRelay st r1) sender = true := by
      rw [storeRelay_isAuthorized]
      exact hauth
    have hmap1 : (storeRelay st r1).relaysByFingerprint r1.fingerprint = r1 := by
      rw [storeRelay_relays]
      simp
    have hmap2 : (storeRelay (storeRelay st r1) r2).relaysByFingerprint
        r2.fingerprint = r2 := by
      rw [storeRelay_relays]
      simp
    have hmap12 : (storeRelay (storeRelay st r1) r2).relaysByFingerprint
        r1.fingerprint = r1 := by
      rw [storeRelay_relays, if_neg hne, hmap1]
    refine ⟨storeRelay st r1, storeRelay (storeRelay st r1) r2,
      updateRelay_ok st sender now r1 hauth hv1,
      updateRelay_ok (storeRelay st r1) sender now r2 hauth1 hv2, ?_, ?_, ?_⟩
    · unfold getRelay
      rw [hmap12]
      simp [fingerprint_pos_of_valid hv1]
    · unfold getRelay
      rw [hmap2]
      simp [fingerprint_pos_of_valid hv2]
    · have hc1 : getRelayCount (storeRelay st r1) = getRelayCount st + 1 := by
        unfold getRelayCount
        rw [storeRelay_list, if_pos hz1]
        simp
      have hz2' : byteLen ((storeRelay st r1).relaysByFingerprint
          r2.fingerprint).fingerprint = 0 := by
        rw [storeRelay_relays, if_neg (fun h => hne h.symm)]
        exact hz2
      have hc2 : getRelayCount (storeRelay (storeRelay st r1) r2) =
          getRelayCount (storeRelay st r1) + 1 := by
        unfold getRelayCount
        rw [storeRelay_list, if_pos hz2']
        simp
      omega
  · have hlen : ¬ (s = "" ∨ s.length ≠ 40) := by
      push_neg
      exact ⟨hs0, hs40⟩
    simp only [transformFingerprint, if_neg hs0, if_neg hlen]

theorem store_fingerprint_case_sensitivity_witness :
    (∃ st1 st2, updateRelay (deploy 1) 1 100 rLowZ = .ok st1 ∧
      updateRelay st1 1 100 rUpZ = .ok st2 ∧
      getRelay st2 rLowZ.fingerprint = .ok rLowZ ∧
      getRelay st2 rUpZ.fingerprint = .ok rUpZ ∧
      getRelayCount st2 = getRelayCount (deploy 1) + 2) ∧
    transformFingerprint (some fpZlow) none = some (jsToUpper fpZlow) :=
  store_fingerprint_case_sensitivity (deploy 1) 1 100 rLowZ rUpZ fpZlow
    (by decide) (by decide) (by decide) (by decide) (by decide) (by decide)
    (by decide) (by decide)
